import Mathlib

/-!
Shallow embedding of the exam application (app.py, exam_app.py,
upload_questions.py) and verification of the frozen claims about it.

Conventions:
* Python strings are Lean String; machine integers are Nat or Int.
* Python dicts (insertion ordered) are association lists with
  replace-in-place update semantics.
* Randomness (random.sample, random.shuffle) is modelled by explicit
  parameters: a sample is a list prefix, a per-question shuffle is a
  permutation of Fin 4 supplied as a parameter.
* Percentages and scores are modelled over the rationals; Python
  round(x, 2) is modelled as half-up rounding to two decimals (the
  banker rounding of Python floats is not distinguished by any claim).
* Fallible handlers return Except; an uncaught Python exception is an
  error value carrying the exception text.
-/

deriving instance DecidableEq for Except

/-- Python round(x, 2): rounding to two decimal places. -/
def round2 (x : ℚ) : ℚ := ((x * 100 + 1/2).floor : ℚ) / 100

/-- Python str.strip(): remove leading and trailing whitespace. -/
def pyStrip (s : String) : String :=
  String.mk (((s.toList.dropWhile Char.isWhitespace).reverse.dropWhile Char.isWhitespace).reverse)

/-- Python str.upper() (ASCII). -/
def pyUpper (s : String) : String := String.mk (s.toList.map Char.toUpper)

/-- Python str.lower() (ASCII). -/
def pyLower (s : String) : String := String.mk (s.toList.map Char.toLower)

/-- Python str.splitlines() for newline-separated text (a trailing newline
produces a final empty line here, which every consumer ignores). -/
def splitNlAux : List Char → List Char → List String
  | [], acc => [String.mk acc.reverse]
  | c :: cs, acc =>
    if c = '\n' then String.mk acc.reverse :: splitNlAux cs []
    else splitNlAux cs (c :: acc)

/-- Split a string at newlines. -/
def pySplitLines (s : String) : List String := splitNlAux s.toList []

/-- Python dict lookup (string keys). -/
def alGetS (l : List (String × String)) (k : String) : Option String :=
  (l.find? (fun p => p.1 == k)).map (fun p => p.2)

/-- Python dict assignment d[k] = v: replaces in place, keeps insertion order. -/
def alInsertS (l : List (String × String)) (k v : String) : List (String × String) :=
  if l.any (fun p => p.1 == k) then l.map (fun p => if p.1 == k then (k, v) else p)
  else l ++ [(k, v)]

/-! ## app.py: data model and the PDF text parser -/

/-- app.py Question dataclass. -/
structure PQuestion where
  number : Nat
  prompt : String
  options : List (String × String)
  answer : String
deriving DecidableEq, Repr

/-- app.py Quiz dataclass. -/
structure Quiz where
  id : String
  title : String
  time_limit_sec : Nat
  questions : List PQuestion
deriving DecidableEq, Repr

/-- Value of a decimal digit string, as Python int(...) on a digit group. -/
def natOfDigits (ds : List Char) : Nat :=
  ds.foldl (fun n c => n * 10 + (c.toNat - ('0').toNat)) 0

/-- QUESTION_START_RE: digits, then a dot or closing paren, then optional
whitespace; returns the number and the remainder (regex group 2). -/
def matchQStart (s : String) : Option (Nat × String) :=
  let cs := s.toList
  let ds := cs.takeWhile Char.isDigit
  match ds, cs.dropWhile Char.isDigit with
  | [], _ => none
  | _ :: _, c :: rest =>
    if c = '.' ∨ c = ')' then some (natOfDigits ds, String.mk (rest.dropWhile Char.isWhitespace))
    else none
  | _ :: _, [] => none

/-- Case-insensitive letter class A-F of OPTION_RE and ANSWER_RE. -/
def isAtoF (c : Char) : Bool :=
  (['A', 'B', 'C', 'D', 'E', 'F']).contains c.toUpper

/-- OPTION_RE: a letter A-F (either case), a separator dot, colon or closing
paren, optional whitespace; returns the letter and the remainder (group 2). -/
def matchOpt (s : String) : Option (Char × String) :=
  match s.toList with
  | c :: sep :: rest =>
    if isAtoF c ∧ (sep = '.' ∨ sep = ':' ∨ sep = ')') then
      some (c, String.mk (rest.dropWhile Char.isWhitespace))
    else none
  | _ => none

/-- ANSWER_RE: the keyword Answer (case-insensitive), optional whitespace,
a colon, optional whitespace, one letter A-F, optional trailing whitespace. -/
def matchAns (s : String) : Option Char :=
  let cs := s.toList
  if (cs.take 6).map Char.toLower = ("answer").toList then
    match (cs.drop 6).dropWhile Char.isWhitespace with
    | c0 :: r =>
      if c0 = ':' then
        match r.dropWhile Char.isWhitespace with
        | c :: r2 => if isAtoF c ∧ r2.all Char.isWhitespace then some c else none
        | [] => none
      else none
    | [] => none
  else none

/-- A line at which prompt accumulation or option continuation stops:
an option line, an answer line, or a new question start. -/
def isStopLine (s : String) : Bool :=
  (matchOpt s).isSome || (matchAns s).isSome || (matchQStart s).isSome

/-- The prompt-gathering loop of parse_pdf_text: consume lines until an
option, answer or question-start line; keep the non-empty ones. -/
def gatherPrompt : List String → List String × List String
  | [] => ([], [])
  | l :: rest =>
    if isStopLine l then ([], l :: rest)
    else
      let (ps, r) := gatherPrompt rest
      (if l ≠ "" then l :: ps else ps, r)

theorem gatherPrompt_len (ls : List String) : (gatherPrompt ls).2.length ≤ ls.length := by
  induction ls with
  | nil => simp [gatherPrompt]
  | cons l rest ih =>
    simp only [gatherPrompt]
    split
    · simp
    · simpa using Nat.le_succ_of_le ih

/-- The option-continuation loop: append non-empty lines to the option text
until a stop line. -/
def gatherCont (t : String) : List String → String × List String
  | [] => (t, [])
  | l :: rest =>
    if isStopLine l then (t, l :: rest)
    else gatherCont (if l ≠ "" then t ++ (" ") ++ l else t) rest

theorem gatherCont_len (t : String) (ls : List String) :
    (gatherCont t ls).2.length ≤ ls.length := by
  induction ls generalizing t with
  | nil => simp [gatherCont]
  | cons l rest ih =>
    simp only [gatherCont]
    split
    · simp
    · exact Nat.le_succ_of_le (ih _)

/-- The option-gathering loop of parse_pdf_text.  Every iteration consumes at
least one line, so the loop is written with a structural fuel parameter that
the wrapper below instantiates with the line count (the fuel never runs out;
the zero case is only reached on an empty list). -/
def gatherOptsF (opts : List (String × String)) : Nat → List String →
    List (String × String) × List String
  | 0, ls => (opts, ls)
  | _ + 1, [] => (opts, [])
  | fuel + 1, l :: rest =>
    match matchOpt l with
    | some (c, g2) =>
      gatherOptsF (alInsertS opts (Char.toString c.toUpper) (gatherCont (pyStrip g2) rest).1)
        fuel (gatherCont (pyStrip g2) rest).2
    | none => (opts, l :: rest)

/-- The option-gathering loop at its actual fuel. -/
def gatherOpts (opts : List (String × String)) (ls : List String) :
    List (String × String) × List String :=
  gatherOptsF opts ls.length ls

theorem gatherOptsF_len (fuel : Nat) : ∀ (opts : List (String × String)) (ls : List String),
    (gatherOptsF opts fuel ls).2.length ≤ ls.length := by
  induction fuel with
  | zero => intro opts ls; simp [gatherOptsF]
  | succ fuel ih =>
    intro opts ls
    cases ls with
    | nil => simp [gatherOptsF]
    | cons l rest =>
      rw [gatherOptsF]
      cases hm : matchOpt l with
      | some v =>
        obtain ⟨c, g2⟩ := v
        simp only
        exact le_trans (ih _ _) (Nat.le_succ_of_le (gatherCont_len _ _))
      | none => simp

theorem gatherOpts_len (opts : List (String × String)) (ls : List String) :
    (gatherOpts opts ls).2.length ≤ ls.length :=
  gatherOptsF_len ls.length opts ls

/-- The optional Answer line consumption of parse_pdf_text. -/
def takeAnswer : List String → Option Char × List String
  | [] => (none, [])
  | l :: rest =>
    match matchAns l with
    | some c => (some c, rest)
    | none => (none, l :: rest)

theorem takeAnswer_len (ls : List String) : (takeAnswer ls).2.length ≤ ls.length := by
  cases ls with
  | nil => simp [takeAnswer]
  | cons l rest =>
    simp only [takeAnswer]
    cases matchAns l <;> simp

/-- The joined prompt of a block, with the placeholder for empty prompts
(lines 164-166 of app.py). -/
def promptOf (qnum : Nat) (prompt_lines : List String) : String :=
  let p := pyStrip (String.intercalate (" ") prompt_lines)
  if p = "" then ("Question ") ++ toString qnum else p

/-- The stored answer string of a block: the answer letter if it is among the
option letters, otherwise cleared (lines 160-162 and 174 of app.py). -/
def storedAnswer (options : List (String × String)) (answer : Option String) : String :=
  match answer with
  | some a => if options.any (fun p => p.1 == a) then a else ""
  | none => ""

/-- The renumbering of a duplicate question number (lines 169-172 of app.py). -/
def maxNumber (qs : List PQuestion) : Nat :=
  qs.foldl (fun m q => max m q.number) 0

/-- The validate-and-store step at the end of each block of parse_pdf_text
(lines 156-174); returns the updated question list and seen-number set. -/
def storeBlock (qnum : Nat) (prompt_lines : List String) (options : List (String × String))
    (answer : Option String) (questions : List PQuestion) (qnum_seen : List Nat) :
    List PQuestion × List Nat :=
  if options.isEmpty then (questions, qnum_seen)
  else
    let qnum2 := if qnum_seen.contains qnum then
        (if questions.isEmpty then 1 else maxNumber questions + 1) else qnum
    (questions ++ [⟨qnum2, promptOf qnum prompt_lines, options, storedAnswer options answer⟩],
     qnum2 :: qnum_seen)

/-- The main loop of parse_pdf_text over the (already stripped) lines, with a
structural fuel parameter instantiated with the line count by the wrapper
below (every iteration consumes at least one line, so the fuel never runs
out; the zero case is only reached on an empty list). -/
def parseLoopF : Nat → List String → List PQuestion → List Nat → List PQuestion
  | 0, _, qs, _ => qs
  | _ + 1, [], qs, _ => qs
  | fuel + 1, l :: rest, qs, seen =>
    match matchQStart l with
    | none => parseLoopF fuel rest qs seen
    | some (qnum, g2) =>
      let pl := (if pyStrip g2 ≠ "" then [pyStrip g2] else []) ++ (gatherPrompt rest).1
      let r1 := (gatherPrompt rest).2
      let opts := (gatherOpts [] r1).1
      let r2 := (gatherOpts [] r1).2
      let ans := ((takeAnswer r2).1).map (fun c => Char.toString c.toUpper)
      let r3 := (takeAnswer r2).2
      parseLoopF fuel r3 (storeBlock qnum pl opts ans qs seen).1
        (storeBlock qnum pl opts ans qs seen).2

/-- The main loop at its actual fuel. -/
def parseLoop (lines : List String) (qs : List PQuestion) (seen : List Nat) : List PQuestion :=
  parseLoopF lines.length lines qs seen

/-- parse_pdf_text: strip every line, then run the block loop. -/
def parse_pdf_text (text : String) : List PQuestion :=
  parseLoop ((pySplitLines text).map pyStrip) [] []

/-- Comparator for claim C8: the same block-store step with the
duplicate-renumbering of lines 168-172 removed (the declared number is kept). -/
def storeBlockNoRenumber (qnum : Nat) (prompt_lines : List String)
    (options : List (String × String)) (answer : Option String)
    (questions : List PQuestion) : List PQuestion :=
  if options.isEmpty then questions
  else questions ++ [⟨qnum, promptOf qnum prompt_lines, options, storedAnswer options answer⟩]

/-- Comparator for claim C8: the parse loop with renumbering removed, with
the same fuel device. -/
def parseLoopNoRenumberF : Nat → List String → List PQuestion → List PQuestion
  | 0, _, qs => qs
  | _ + 1, [], qs => qs
  | fuel + 1, l :: rest, qs =>
    match matchQStart l with
    | none => parseLoopNoRenumberF fuel rest qs
    | some (qnum, g2) =>
      let pl := (if pyStrip g2 ≠ "" then [pyStrip g2] else []) ++ (gatherPrompt rest).1
      let r1 := (gatherPrompt rest).2
      let opts := (gatherOpts [] r1).1
      let r2 := (gatherOpts [] r1).2
      let ans := ((takeAnswer r2).1).map (fun c => Char.toString c.toUpper)
      let r3 := (takeAnswer r2).2
      parseLoopNoRenumberF fuel r3 (storeBlockNoRenumber qnum pl opts ans qs)

/-- The no-renumbering loop at its actual fuel. -/
def parseLoopNoRenumber (lines : List String) (qs : List PQuestion) : List PQuestion :=
  parseLoopNoRenumberF lines.length lines qs

/-! ## app.py: upload (session building) and submit (grading) -/

/-- The upload route of app.py after PDF extraction and parsing: clamps an
oversize count (with a warning flag), builds the quiz from a sample of the
requested size.  The uniform random sample of random.sample is modelled as
taking the first num questions; random.sample raises ValueError on a
negative size, modelled as an error value. -/
def appUpload (all_qs : List PQuestion) (num tmin : Int) : Except String (Quiz × Bool) :=
  if all_qs.isEmpty then .error ("Không tìm thấy câu hỏi trong PDF.")
  else
    let clamped : Bool := decide (num > (all_qs.length : Int))
    let num2 : Int := if clamped then (all_qs.length : Int) else num
    if num2 < 0 then .error ("ValueError: Sample larger than population or is negative")
    else .ok (⟨"quiz-id", "", (max 1 (tmin * 60)).toNat, all_qs.take num2.toNat⟩, clamped)

/-- Normalization of one submitted form value in submit:
if val: val = val.strip().upper(). -/
def normalizeAns (o : Option String) : Option String :=
  o.map (fun v => if v = "" then v else pyUpper (pyStrip v))

/-- The correct answer of a question as compared by submit:
q.answer or None. -/
def answerOpt (q : PQuestion) : Option String :=
  if q.answer = "" then none else some q.answer

/-- One grading comparison of submit: ans == (q.answer or None).
In Python, None == None holds, so two absent values compare equal. -/
def gradeOne (ans : Option String) (q : PQuestion) : Bool :=
  ans == answerOpt q

/-- The grade report of the submit route. -/
structure SubmitRes where
  correct : Nat
  total : Nat
  percent : ℚ
  details : List (Option String × String × Bool)
deriving DecidableEq

/-- The submit route of app.py: normalize the submitted answers, compare each
against the stored answer, and compute the percentage.  The division by the
question count is unguarded in the source; on an empty quiz it raises
ZeroDivisionError, modelled as an error value. -/
def appSubmit (quiz : Quiz) (raw : List (Option String)) : Except String SubmitRes :=
  let ua := raw.map normalizeAns
  let pairs := ua.zip quiz.questions
  let correct := pairs.countP (fun p => gradeOne p.1 p.2)
  let details := pairs.map
    (fun p => (p.1, (if p.2.answer = "" then ("?") else p.2.answer), gradeOne p.1 p.2))
  if quiz.questions.length = 0 then .error ("ZeroDivisionError: division by zero")
  else .ok ⟨correct, quiz.questions.length,
    round2 (((correct : ℚ) / (quiz.questions.length : ℚ)) * 100), details⟩

/-! ## exam_app.py: session building (index route) -/

/-- A row of the questions table as loaded by load_question_by_id. -/
structure DBQuestion where
  id : Nat
  text : Option String
  option_a : Option String
  option_b : Option String
  option_c : Option String
  option_d : Option String
  correct_label : Option String
deriving DecidableEq, Repr

/-- The original option labels of the opts list built in index (line 109-114). -/
def origLabel : Fin 4 → String
  | 0 => "a"
  | 1 => "b"
  | 2 => "c"
  | 3 => "d"

/-- The option texts of the opts list: q.get(option_x) or empty. -/
def optTexts (q : DBQuestion) : Fin 4 → String
  | 0 => q.option_a.getD ""
  | 1 => q.option_b.getD ""
  | 2 => q.option_c.getD ""
  | 3 => q.option_d.getD ""

/-- random.shuffle(opts) modelled by a permutation of Fin 4: the i-th element
of the shuffled list is the original element at position pi(i). -/
def shuffledOpts (q : DBQuestion) (pi : Equiv.Perm (Fin 4)) : List (String × String) :=
  [(origLabel (pi 0), optTexts q (pi 0)), (origLabel (pi 1), optTexts q (pi 1)),
   (origLabel (pi 2), optTexts q (pi 2)), (origLabel (pi 3), optTexts q (pi 3))]

/-- A display choice of a session question (lines 118-123 of exam_app.py). -/
structure Choice where
  display_label : String
  text : String
  is_correct : Bool
deriving DecidableEq, Repr

/-- The lowercased correct label compared in index:
(q.get(correct_label) or empty).lower(). -/
def correctStr (q : DBQuestion) : String := pyLower (q.correct_label.getD "")

/-- The display labels assigned in order. -/
def displayLabels : List String := ["a", "b", "c", "d"]

/-- The choice-building loop of index (lines 116-123): pair each shuffled
option with the next display label, mark it correct when its original label
equals the lowercased correct label; correct_display is the display label of
the last marked option (later loop iterations overwrite earlier ones). -/
def buildChoices (corr : String) : List (String × String) → List String → List Choice × Option String
  | [], _ => ([], none)
  | _ :: _, [] => ([], none)
  | o :: os, dl :: dls =>
    let res := buildChoices corr os dls
    (⟨dl, o.2, o.1 == corr⟩ :: res.1,
     match res.2 with
     | some x => some x
     | none => if o.1 == corr then some dl else none)

/-- One session question as built by index: its shuffled choices and the
display label of the correct option. -/
def sessionChoices (q : DBQuestion) (pi : Equiv.Perm (Fin 4)) : List Choice × Option String :=
  buildChoices (correctStr q) (shuffledOpts q pi) displayLabels

/-- The configuration validation of the index POST handler (lines 89-98):
rejects a count outside 1..total and a non-positive time, otherwise returns
the accepted count and the time limit in seconds. -/
def examIndexPost (total : Nat) (num_q time_minutes : Int) : Except String (Nat × Nat) :=
  if num_q ≤ 0 ∨ num_q > (total : Int) then
    .error (("Số câu phải trong khoảng 1..") ++ toString total)
  else if time_minutes ≤ 0 then .error ("Thời lượng phải > 0")
  else .ok (num_q.toNat, (time_minutes * 60).toNat)

/-! ## exam_app.py: session state, exam route, finish route -/

/-- One entry of session question_data. -/
structure SQ where
  id : Nat
  text : String
  choices : List Choice
  correct_display : Option String
  images : List Nat
deriving DecidableEq, Repr

/-- The Flask session state of exam_app.py. -/
structure ESession where
  question_data : List SQ
  answers : List (Nat × String)
  num_q : Nat
  time_limit_seconds : Nat
  start_time : Nat
deriving DecidableEq, Repr

/-- Python dict lookup on the answers map (keys str(idx), modelled as Nat). -/
def alGetN (l : List (Nat × String)) (k : Nat) : Option String :=
  (l.find? (fun p => p.1 == k)).map (fun p => p.2)

/-- Python dict assignment on the answers map. -/
def alInsertN (l : List (Nat × String)) (k : Nat) (v : String) : List (Nat × String) :=
  if l.any (fun p => p.1 == k) then l.map (fun p => if p.1 == k then (k, v) else p)
  else l ++ [(k, v)]

/-- time_left_seconds: max(0, limit - (now - start)). -/
def timeLeft (st : ESession) (now : Nat) : Int :=
  max 0 ((st.time_limit_seconds : Int) - ((now : Int) - (st.start_time : Int)))

/-- The navigation buttons of the exam form. -/
inductive Nav where
  | next
  | prev
  | goto (g : Nat)
  | finishBtn
  | nonav
deriving DecidableEq, Repr

/-- A response of the exam route: a redirect to an exam page, a redirect to
the finish page, or a rendered exam page at a position. -/
inductive Resp where
  | redirectExam (i : Nat)
  | redirectFinish
  | render (i : Nat)
deriving DecidableEq, Repr

/-- The POST handler of the exam route (lines 173-207 of exam_app.py):
range-check the position, check expiry, record a non-empty submitted choice,
then follow the pressed navigation button.  The goto target is redirected to
unclamped. -/
def examPost (st : ESession) (now : Nat) (idx : Nat) (choice : Option String) (nav : Nav) :
    ESession × Resp :=
  if idx < 1 ∨ idx > st.num_q then (st, .redirectExam 1)
  else if timeLeft st now = 0 then (st, .redirectFinish)
  else
    let st2 := match choice with
      | some c => if c ≠ "" then { st with answers := alInsertN st.answers idx c } else st
      | none => st
    match nav with
    | .next => (st2, .redirectExam (min st.num_q (idx + 1)))
    | .prev => (st2, .redirectExam (max 1 (idx - 1)))
    | .goto g => (st2, .redirectExam g)
    | .finishBtn => (st2, .redirectFinish)
    | .nonav => (st2, .render idx)

/-- The GET handler of the exam route: the same guards, no mutation. -/
def examGet (st : ESession) (now : Nat) (idx : Nat) : Resp :=
  if idx < 1 ∨ idx > st.num_q then .redirectExam 1
  else if timeLeft st now = 0 then .redirectFinish
  else .render idx

/-- Follow up to two exam-page redirects of a response (a redirect chain
redirect-to-goto, then possibly redirect-to-1). -/
def followNav (st : ESession) (now : Nat) (r : Resp) : Resp :=
  match r with
  | .redirectExam j =>
    match examGet st now j with
    | .redirectExam k => examGet st now k
    | r2 => r2
  | r2 => r2

/-- The page finally reached by a navigation POST without an answer choice. -/
def navResult (st : ESession) (now : Nat) (idx : Nat) (nav : Nav) : ESession × Resp :=
  let pr := examPost st now idx none nav
  (pr.1, followNav pr.1 now pr.2)

/-- One row of the finish report. -/
structure FinishRow where
  idx : Nat
  chosen : Option String
  correct : Option String
  correct_text : Option String
  is_right : Bool
deriving DecidableEq, Repr

/-- The correct_text loop of finish: the text of the last choice whose
display label equals the correct display label (None when correct is None,
since in Python a string never equals None). -/
def lastMatchText (cs : List Choice) (corr : Option String) : Option String :=
  cs.foldl (fun acc c => if (some c.display_label : Option String) == corr then some c.text else acc)
    none

/-- The per-question rows of the finish route (lines 284-294), positions
counted from 1 in question_data order. -/
def finishRowsAux : Nat → List SQ → List (Nat × String) → List FinishRow
  | _, [], _ => []
  | i, q :: qs, ans =>
    { idx := i
      chosen := alGetN ans i
      correct := q.correct_display
      correct_text := lastMatchText q.choices q.correct_display
      is_right := alGetN ans i == q.correct_display } :: finishRowsAux (i + 1) qs ans

/-- The finish route report: rows, correct count, and the score out of 10
(guarded against an empty session). -/
def finishReport (st : ESession) : List FinishRow × Nat × ℚ :=
  let rows := finishRowsAux 1 st.question_data st.answers
  let cc := rows.countP (fun r => r.is_right)
  (rows, cc,
   if st.question_data.length > 0 then
     round2 (((cc : ℚ) / (st.question_data.length : ℚ)) * 10)
   else 0)

/-- The finish route does not write the session: it returns the unchanged
state together with the report. -/
def finishStep (st : ESession) : ESession × (List FinishRow × Nat × ℚ) :=
  (st, finishReport st)

/-! ## upload_questions.py: the spreadsheet parser -/

/-- Lowercasing as used on the cell text; Python str.lower is full Unicode,
here restricted to ASCII plus the circumflex A of the question marker. -/
def lowerVN (c : Char) : Char := if c = 'Â' then 'â' else c.toLower

/-- text.lower().startswith of the question marker word. -/
def startsCau (s : String) : Bool :=
  ((s.toList.take 3).map lowerVN) == ("câu").toList

/-- Q_PREFIX_RE.sub: remove a leading question marker word, whitespace, a
nonempty digit group, dots and whitespace; if the digits are missing the
prefix does not match and the string is returned unchanged. -/
def subCauNum (s : String) : String :=
  let cs := s.toList
  if ((cs.take 3).map lowerVN) == ("câu").toList then
    let r1 := (cs.drop 3).dropWhile Char.isWhitespace
    if r1.takeWhile Char.isDigit = [] then s
    else String.mk (((r1.dropWhile Char.isDigit).dropWhile (fun c => c = '.')).dropWhile
      Char.isWhitespace)
  else s

/-- The option letter class of the spreadsheet parser. -/
def isABCD (c : Char) : Bool := (['a', 'b', 'c', 'd', 'A', 'B', 'C', 'D']).contains c

/-- CHOICE_LINE_RE: an option letter, a dot, optional whitespace, then at
least one character; the dot-star group stops at a newline and the use site
strips the captured text, so the stripped capture is returned (a match needs
some non-newline character after the dot). -/
def matchChoice (s : String) : Option (String × String) :=
  match s.toList with
  | c :: c2 :: rest =>
    if isABCD c ∧ c2 = '.' ∧ rest.any (fun x => x ≠ '\n') then
      some (Char.toString c.toLower,
        pyStrip (String.mk ((rest.dropWhile Char.isWhitespace).takeWhile (fun x => x ≠ '\n'))))
    else none
  | _ => none

/-- ASCII approximation of the regex word class used by the word boundary. -/
def isWordChar (c : Char) : Bool := c.isAlphanum || c = '_'

/-- The word boundary before the matched letter: start of string or a
preceding non-word character. -/
def boundaryOk (prev : Option Char) : Bool :=
  match prev with
  | none => true
  | some p => !(isWordChar p)

/-- Scan for the first word-boundary occurrence of the letter a followed by a
dot (either case); returns the text before the match and the suffix starting
at the match. -/
def goInlineA (prev : Option Char) (acc : List Char) : List Char → Option (List Char × List Char)
  | c1 :: c2 :: rest =>
    if (c1 = 'a' ∨ c1 = 'A') ∧ c2 = '.' ∧ boundaryOk prev = true then
      some (acc, c1 :: c2 :: rest)
    else goInlineA (some c1) (acc ++ [c1]) (c2 :: rest)
  | _ => none

/-- re.search of an inline option-a marker in a question cell. -/
def splitInlineA (cs : List Char) : Option (List Char × List Char) := goInlineA none [] cs

/-- The lazy dot-plus capture of the inline option pattern: consume characters
until the next option-letter-dot pair (checked only after at least one
captured character) or the end of the string. -/
def captureBody (acc : List Char) : List Char → List Char × List Char
  | [] => (acc.reverse, [])
  | c :: cs =>
    if isABCD c ∧ cs.head? = some '.' then (acc.reverse, c :: cs)
    else captureBody (c :: acc) cs

theorem dropWhileLenLe (p : Char → Bool) (l : List Char) :
    (l.dropWhile p).length ≤ l.length := by
  induction l with
  | nil => simp
  | cons a l ih =>
    simp only [List.dropWhile]
    split
    · exact Nat.le_succ_of_le ih
    · simp

theorem captureBody_len (acc : List Char) (cs : List Char) :
    (captureBody acc cs).2.length ≤ cs.length := by
  induction cs generalizing acc with
  | nil => simp [captureBody]
  | cons c cs ih =>
    simp only [captureBody]
    split
    · simp
    · exact Nat.le_succ_of_le (ih _)

/-- group(2).strip().replace newline by space .strip() of the inline loop. -/
def inlineVal (g2 : List Char) : String :=
  pyStrip (String.mk (((pyStrip (String.mk g2)).toList).map (fun c => if c = '\n' then ' ' else c)))

/-- re.finditer of the inline option pattern: repeatedly match an option
letter and dot, greedy whitespace, then the lazy capture up to the next
option-letter-dot pair or the end.  When only whitespace follows the dot the
regex backtracks and captures whitespace, stripped to the empty string. -/
def inlineMatchesF : Nat → List Char → List (Char × String)
  | 0, _ => []
  | _ + 1, [] => []
  | _ + 1, [_] => []
  | fuel + 1, c1 :: c2 :: rest =>
    if isABCD c1 ∧ c2 = '.' ∧ rest ≠ [] then
      match rest.dropWhile Char.isWhitespace with
      | [] => [(c1, "")]
      | b :: bs =>
        (c1, inlineVal (captureBody [b] bs).1) :: inlineMatchesF fuel (captureBody [b] bs).2
    else inlineMatchesF fuel (c2 :: rest)

/-- The inline finditer at its actual fuel (each step consumes at least one
character, so the fuel never runs out). -/
def inlineMatches (cs : List Char) : List (Char × String) := inlineMatchesF cs.length cs

/-- The found dict of the inline loop: lowercased letter keys in match order,
later duplicate letters overwriting earlier values. -/
def inlineFound (fromA : List Char) : List (String × String) :=
  (inlineMatches fromA).foldl (fun d p => alInsertS d (Char.toString p.1.toLower) p.2) []

/-- A parsed spreadsheet question. -/
structure XQ where
  question : String
  options : List (String × String)
  correct : Option String
deriving DecidableEq, Repr

/-- The accumulation state of parse_excel_dataframe. -/
structure PState where
  questions : List XQ
  current_q : Option String
  opts : List (String × String)
  correct : Option String
deriving DecidableEq, Repr

/-- Python truthiness of the current question variable: not None and not
the empty string. -/
def truthy (o : Option String) : Bool :=
  match o with
  | some s => s ≠ ""
  | none => false

/-- The question appended when the accumulated block is finalized. -/
def mkXQ (st : PState) : XQ := ⟨st.current_q.getD "", st.opts, st.correct⟩

/-- The correctness mark of column two: empty for a missing cell, otherwise
stripped and lowercased. -/
def markOf (cellA : Option String) : String :=
  match cellA with
  | none => ""
  | some s => pyLower (pyStrip s)

/-- One iteration of the row loop of parse_excel_dataframe (lines 107-168):
skip missing cells; on a question marker row finalize a complete previous
question, handle an inline options cell, or start a fresh question; on an
option row accumulate the option (and the correct mark), emitting and
resetting when the fourth option arrives with a current question; otherwise
append a continuation line to a question that has no options yet. -/
def stepRow (st : PState) (cellQ cellA : Option String) : PState :=
  match cellQ with
  | none => st
  | some rawQ =>
    let text := pyStrip rawQ
    let mark := markOf cellA
    if startsCau text then
      let qs1 := if truthy st.current_q ∧ st.opts.length = 4
                 then st.questions ++ [mkXQ st] else st.questions
      match splitInlineA text.toList with
      | some (before, fromA) =>
        let qtext := pyStrip (String.mk before)
        let found := inlineFound fromA
        if found.length = 4 then ⟨qs1 ++ [⟨qtext, found, none⟩], none, [], none⟩
        else ⟨qs1, some qtext, found, none⟩
      | none => ⟨qs1, some (pyStrip (subCauNum text)), [], none⟩
    else
      match matchChoice text with
      | some (lab, val) =>
        let opts2 := alInsertS st.opts lab val
        let corr2 := if mark = "x" then some lab else st.correct
        if opts2.length = 4 ∧ truthy st.current_q then
          ⟨st.questions ++ [⟨st.current_q.getD "", opts2, corr2⟩], none, [], none⟩
        else ⟨st.questions, st.current_q, opts2, corr2⟩
      | none =>
        if truthy st.current_q ∧ st.opts.length = 0 then
          ⟨st.questions, st.current_q.map (fun s => s ++ ("\n") ++ text), st.opts, st.correct⟩
        else st

/-- The trailing finalize of parse_excel_dataframe (lines 171-172). -/
def finalizeP (st : PState) : List XQ :=
  if truthy st.current_q ∧ st.opts.length = 4 then st.questions ++ [mkXQ st] else st.questions

/-- parse_excel_dataframe over the data rows (first column cell, second
column cell; a missing cell is None). -/
def parse_excel_dataframe (rows : List (Option String × Option String)) : List XQ :=
  finalizeP (rows.foldl (fun st r => stepRow st r.1 r.2) ⟨[], none, [], none⟩)

/-! ## upload_questions.py: the upload_excel route -/

/-- A stored row of the questions table (save_question_to_db). -/
structure SavedQ where
  question : String
  option_a : String
  option_b : String
  option_c : String
  option_d : String
  correct_label : Option String
deriving DecidableEq, Repr

/-- save_question_to_db after the setdefault loop of upload_excel: missing
option keys default to the empty string. -/
def saveQuestion (x : XQ) : SavedQ :=
  ⟨x.question, (alGetS x.options ("a")).getD "", (alGetS x.options ("b")).getD "",
   (alGetS x.options ("c")).getD "", (alGetS x.options ("d")).getD "", x.correct⟩

/-- The observable outcome of the upload_excel route. -/
inductive UploadOutcome where
  | readError (e : String)
  | noQuestions
  | added (n : Nat)
deriving DecidableEq, Repr

/-- The upload_excel route (lines 176-225): reading the workbook happens
first (a failure leaves the stored bank untouched); with overwrite enabled
every existing question is then deleted before parsing; a parse that yields
no questions reports an error with the bank already emptied; otherwise the
parsed questions are inserted. -/
def upload_excel (bank : List SavedQ) (overwrite : Bool)
    (readResult : Except String (List (Option String × Option String))) :
    List SavedQ × UploadOutcome :=
  match readResult with
  | .error e => (bank, .readError e)
  | .ok df =>
    let bank1 := if overwrite then [] else bank
    let parsed := parse_excel_dataframe df
    if parsed.isEmpty then (bank1, .noQuestions)
    else (bank1 ++ parsed.map saveQuestion, .added parsed.length)

/-! ## Concrete instances used by counterexamples and witnesses -/

/-- A parsed question whose Answer letter was cleared (no correct letter). -/
def q1cex : PQuestion := ⟨1, "p", [("A", "3"), ("B", "4")], ""⟩

/-- The quiz holding only q1cex. -/
def quizCex : Quiz := ⟨"quiz-id", "", 900, [q1cex]⟩

/-- The zero-question quiz that appUpload builds for a requested count of 0. -/
def emptyQuiz : Quiz := ⟨"quiz-id", "", 900, []⟩

/-- A one-question exam session with 60 seconds on the clock. -/
def st3 : ESession := ⟨[⟨1, "Q", [], none, []⟩], [], 1, 60, 0⟩

/-- A three-question exam session with 60 seconds on the clock. -/
def st6 : ESession :=
  ⟨[⟨1, "", [], none, []⟩, ⟨2, "", [], none, []⟩, ⟨3, "", [], none, []⟩], [], 3, 60, 0⟩

/-! ## Claim C1 -/

/-- Claim C1, counterexample: in the submit grader, a question with no
recorded answer and no stored correct letter is counted as correct (Python
compares None equal to None), so the claim that such a question is never
counted correct fails at this input. -/
theorem C1_counterexample :
    q1cex.answer = "" ∧
    (appSubmit quizCex [none]).map (fun r => (r.correct, r.total, r.details)) =
      .ok (1, 1, [((none : Option String), ("?"), true)]) := by
  constructor
  · rfl
  · decide

theorem finishRowsAux_is_right (qs : List SQ) :
    ∀ (i : Nat) (ans : List (Nat × String)), ∀ r ∈ finishRowsAux i qs ans,
      r.is_right = (r.chosen == r.correct) := by
  induction qs with
  | nil => intro i ans r hr; simp [finishRowsAux] at hr
  | cons q qs ih =>
    intro i ans r hr
    simp only [finishRowsAux, List.mem_cons] at hr
    rcases hr with h | h
    · subst h; rfl
    · exact ih (i + 1) ans r h

/-- Claim C1, amended: a question is graded correct exactly when the
(normalized) recorded answer equals the stored correct letter with Python
equality on optional values, under which two absent values compare equal:
both absent counts as correct, while exactly one absent never matches.  This
holds for the submit grader of app.py and the finish grader of exam_app.py. -/
theorem C1_amended :
    (∀ (a : Option String) (q : PQuestion), gradeOne a q = true ↔ a = answerOpt q) ∧
    (∀ (q : PQuestion), gradeOne none q = true ↔ answerOpt q = none) ∧
    (∀ (a : String) (q : PQuestion), answerOpt q = none → gradeOne (some a) q = false) ∧
    (∀ (q : PQuestion) (a : Option String), answerOpt q ≠ none → a = none → gradeOne a q = false) ∧
    (∀ (st : ESession), ∀ r ∈ (finishReport st).1, (r.is_right = true ↔ r.chosen = r.correct)) := by
  refine ⟨?_, ?_, ?_, ?_, ?_⟩
  · intro a q
    simp [gradeOne]
  · intro q
    simp only [gradeOne, beq_iff_eq]
    exact eq_comm
  · intro a q h
    simp [gradeOne, h]
  · intro q a h ha
    subst ha
    cases hq : answerOpt q with
    | none => exact absurd hq h
    | some x => simp [gradeOne, hq]
  · intro st r hr
    have h := finishRowsAux_is_right st.question_data 1 st.answers r hr
    rw [h]
    simp

/-- Claim C1, witness: the amended statement applied at concrete inputs. -/
theorem C1_amended_witness :
    (answerOpt q1cex = none ∧ gradeOne (some ("B")) q1cex = false) ∧
    ((⟨1, none, none, none, true⟩ : FinishRow) ∈ (finishReport st3).1 ∧
      ((⟨1, none, none, none, true⟩ : FinishRow).is_right = true ↔
        (⟨1, none, none, none, true⟩ : FinishRow).chosen =
          (⟨1, none, none, none, true⟩ : FinishRow).correct)) :=
  ⟨⟨by decide, C1_amended.2.2.1 ("B") q1cex (by decide)⟩,
   ⟨by decide, C1_amended.2.2.2.2 st3 ⟨1, none, none, none, true⟩ (by decide)⟩⟩

/-! ## Claim C3 -/

/-- Claim C3, counterexample: the finish route does not close the session
(there is no finished state), and a later answer submission with time still
remaining succeeds and mutates the answer map, so the claim that every
recordAnswer after finishing fails and leaves the answers unchanged is false
at this input. -/
theorem C3_counterexample :
    (finishStep st3).1 = st3 ∧
    st3.answers = [] ∧
    (examPost st3 10 1 (some ("a")) Nav.nonav).1.answers = [(1, ("a"))] := by
  refine ⟨rfl, rfl, by decide⟩

/-- Claim C3, amended: finishing does not close the session (the state is
returned unchanged and, while time remains, answer recording still succeeds);
when the remaining time is zero, any exam-page request is redirected (to the
finish page, or to position 1 when the position is out of range) and leaves
the session unchanged. -/
theorem C3_amended (st : ESession) (now idx : Nat) (choice : Option String) (nav : Nav)
    (h : timeLeft st now = 0) :
    (finishStep st).1 = st ∧
    (examPost st now idx choice nav).1 = st ∧
    (examPost st now idx choice nav).2 =
      (if idx < 1 ∨ idx > st.num_q then Resp.redirectExam 1 else Resp.redirectFinish) := by
  refine ⟨rfl, ?_, ?_⟩ <;>
  · unfold examPost
    split
    · simp
    · simp [h]

/-- Claim C3, witness: the amended statement applied at a concrete timed-out
session. -/
theorem C3_amended_witness :
    timeLeft st3 100 = 0 ∧
    ((finishStep st3).1 = st3 ∧
     (examPost st3 100 1 (some ("a")) Nav.nonav).1 = st3 ∧
     (examPost st3 100 1 (some ("a")) Nav.nonav).2 =
       (if 1 < 1 ∨ 1 > st3.num_q then Resp.redirectExam 1 else Resp.redirectFinish)) :=
  ⟨by decide, C3_amended st3 100 1 (some ("a")) Nav.nonav (by decide)⟩

/-! ## Claim C4 -/

/-- Claim C4, counterexample: the DB exam app rejects a request whose count
exceeds the bank size with an error instead of clamping it, and the PDF app
creates a session for the non-positive count 0 instead of failing, so the
claim fails at these inputs. -/
theorem C4_counterexample :
    examIndexPost 5 6 10 = .error (("Số câu phải trong khoảng 1..") ++ toString 5) ∧
    appUpload [q1cex] 0 15 = .ok (emptyQuiz, false) := by
  constructor
  · decide
  · decide

/-- Claim C4, amended: in the PDF app (app.py) a count above the bank size is
clamped to the bank size with a warning and a session is still created, an
empty bank fails with an error, a count of 0 creates an empty session, a
negative count raises an unhandled ValueError, and a non-positive time is
clamped to one second rather than rejected; in the DB exam app (exam_app.py)
a count outside 1..bank-size or a non-positive time fails with an error and
no session is created (no clamping), and in-range configurations are
accepted. -/
theorem C4_amended :
    (∀ (qs : List PQuestion) (num tmin : Int), qs ≠ [] → num > qs.length →
      appUpload qs num tmin = .ok (⟨"quiz-id", "", (max 1 (tmin * 60)).toNat, qs⟩, true)) ∧
    (∀ num tmin : Int, appUpload [] num tmin = .error ("Không tìm thấy câu hỏi trong PDF.")) ∧
    (∀ (qs : List PQuestion) (tmin : Int), qs ≠ [] →
      appUpload qs 0 tmin = .ok (⟨"quiz-id", "", (max 1 (tmin * 60)).toNat, []⟩, false)) ∧
    (∀ (qs : List PQuestion) (num tmin : Int), qs ≠ [] → num < 0 →
      appUpload qs num tmin = .error ("ValueError: Sample larger than population or is negative")) ∧
    (∀ (total : Nat) (n t : Int), n ≤ 0 ∨ n > total →
      examIndexPost total n t = .error (("Số câu phải trong khoảng 1..") ++ toString total)) ∧
    (∀ (total : Nat) (n t : Int), 0 < n → n ≤ total → t ≤ 0 →
      examIndexPost total n t = .error ("Thời lượng phải > 0")) ∧
    (∀ (total : Nat) (n t : Int), 0 < n → n ≤ total → 0 < t →
      examIndexPost total n t = .ok (n.toNat, (t * 60).toNat)) := by
  refine ⟨?_, ?_, ?_, ?_, ?_, ?_, ?_⟩
  · intro qs num tmin hne hgt
    have hl : qs.isEmpty = false := by simpa [List.isEmpty_iff] using hne
    have hd : decide (num > (qs.length : Int)) = true := decide_eq_true hgt
    have h0 : ¬ ((qs.length : Int) < 0) := by omega
    simp only [appUpload, hl, Bool.false_eq_true, if_false, hd, if_true, h0,
      Int.toNat_natCast, List.take_length]
  · intro num tmin
    simp [appUpload]
  · intro qs tmin hne
    have hl : qs.isEmpty = false := by simpa [List.isEmpty_iff] using hne
    have hgt : ¬ ((0 : Int) > qs.length) := by omega
    have hd : decide ((0 : Int) > (qs.length : Int)) = false := decide_eq_false hgt
    simp [appUpload, hl, hd]
  · intro qs num tmin hne hneg
    have hl : qs.isEmpty = false := by simpa [List.isEmpty_iff] using hne
    have hgt : ¬ (num > (qs.length : Int)) := by omega
    have hd : decide (num > (qs.length : Int)) = false := decide_eq_false hgt
    simp [appUpload, hl, hd, hneg]
  · intro total n t h
    have : n ≤ 0 ∨ n > (total : Int) := by omega
    simp [examIndexPost, this]
  · intro total n t h1 h2 h3
    have h : ¬ (n ≤ 0 ∨ n > (total : Int)) := by omega
    simp [examIndexPost, h, h3]
  · intro total n t h1 h2 h3
    have h : ¬ (n ≤ 0 ∨ n > (total : Int)) := by omega
    have h4 : ¬ (t ≤ 0) := by omega
    simp [examIndexPost, h, h4]

/-- Claim C4, witness: the amended statement applied at concrete inputs. -/
theorem C4_amended_witness :
    (appUpload [q1cex] 2 1 = .ok (⟨"quiz-id", "", 60, [q1cex]⟩, true)) ∧
    (appUpload [q1cex] 0 1 = .ok (⟨"quiz-id", "", 60, []⟩, false)) ∧
    (appUpload [q1cex] (-1) 1 =
      .error ("ValueError: Sample larger than population or is negative")) ∧
    (examIndexPost 3 0 5 = .error (("Số câu phải trong khoảng 1..") ++ toString 3)) ∧
    (examIndexPost 3 2 0 = .error ("Thời lượng phải > 0")) ∧
    (examIndexPost 3 2 5 = .ok (2, 300)) := by
  refine ⟨?_, ?_, ?_, ?_, ?_, ?_⟩
  · have h := C4_amended.1 [q1cex] 2 1 (by decide) (by decide)
    simpa using h
  · have h := C4_amended.2.2.1 [q1cex] 1 (by decide)
    simpa using h
  · exact C4_amended.2.2.2.1 [q1cex] (-1) 1 (by decide) (by decide)
  · have h := C4_amended.2.2.2.2.1 3 0 5 (by omega)
    simpa using h
  · exact C4_amended.2.2.2.2.2.1 3 2 0 (by omega) (by omega) (by omega)
  · have h := C4_amended.2.2.2.2.2.2 3 2 5 (by omega) (by omega) (by omega)
    simpa using h

/-! ## Claim C5 -/

/-- Claim C5: the claim says grading never crashes, but the upload route
accepts a requested count of 0 (creating a zero-question quiz) and the submit
route divides by the question count unguarded, so submitting that quiz raises
ZeroDivisionError instead of reporting a percentage of 0. -/
theorem C5_bug :
    appUpload [q1cex] 0 15 = .ok (emptyQuiz, false) ∧
    appSubmit emptyQuiz [] = .error ("ZeroDivisionError: division by zero") := by
  constructor
  · decide
  · decide

/-! ## Claim C6 -/

/-- Claim C6, counterexample: in a three-question session, jumping from
position 2 to target 5 lands on position 1 (the out-of-range guard redirects
to the first question), not on the clamped position 3, so clamping into
[1, M] fails at this input. -/
theorem C6_counterexample :
    navResult st6 10 2 (Nav.goto 5) = (st6, Resp.render 1) ∧
    min (max 5 1) st6.num_q = 3 ∧
    Resp.render 1 ≠ Resp.render 3 := by
  refine ⟨by decide, by decide, by decide⟩

/-- Claim C6, amended: with a valid current position and time remaining, a
navigation request without an answer choice leaves the session state
unchanged; next moves to min(M, idx+1) and previous to max(1, idx-1) with no
wraparound; a jump lands on the target when it lies in [1, M] and otherwise
lands on position 1 (the out-of-range guard of the exam page redirects to the
first question instead of clamping to the nearest bound). -/
theorem C6_amended (st : ESession) (now idx g : Nat)
    (h1 : 1 ≤ idx) (h2 : idx ≤ st.num_q) (h3 : timeLeft st now ≠ 0) :
    (∀ (nav : Nav), (examPost st now idx none nav).1 = st) ∧
    navResult st now idx Nav.next = (st, Resp.render (min st.num_q (idx + 1))) ∧
    navResult st now idx Nav.prev = (st, Resp.render (max 1 (idx - 1))) ∧
    navResult st now idx (Nav.goto g) =
      (st, Resp.render (if 1 ≤ g ∧ g ≤ st.num_q then g else 1)) := by
  have hidx : ¬ (idx < 1 ∨ idx > st.num_q) := by omega
  have hpost : ∀ (nav : Nav), examPost st now idx none nav =
      (st, match nav with
           | Nav.next => Resp.redirectExam (min st.num_q (idx + 1))
           | Nav.prev => Resp.redirectExam (max 1 (idx - 1))
           | Nav.goto g2 => Resp.redirectExam g2
           | Nav.finishBtn => Resp.redirectFinish
           | Nav.nonav => Resp.render idx) := by
    intro nav
    unfold examPost
    rw [if_neg hidx, if_neg h3]
    cases nav <;> rfl
  have hget : ∀ (j : Nat), 1 ≤ j → j ≤ st.num_q → examGet st now j = Resp.render j := by
    intro j hj1 hj2
    unfold examGet
    rw [if_neg (by omega), if_neg h3]
  refine ⟨?_, ?_, ?_, ?_⟩
  · intro nav
    rw [hpost nav]
  · unfold navResult
    rw [hpost Nav.next]
    simp only [followNav]
    rw [hget (min st.num_q (idx + 1)) (by omega) (by omega)]
  · unfold navResult
    rw [hpost Nav.prev]
    simp only [followNav]
    rw [hget (max 1 (idx - 1)) (by omega) (by omega)]
  · unfold navResult
    rw [hpost (Nav.goto g)]
    simp only [followNav]
    by_cases hg : 1 ≤ g ∧ g ≤ st.num_q
    · rw [hget g hg.1 hg.2, if_pos hg]
    · have hout : examGet st now g = Resp.redirectExam 1 := by
        unfold examGet
        rw [if_pos (by omega)]
      rw [hout]
      have hred : (match Resp.redirectExam 1 with
          | Resp.redirectExam k => examGet st now k
          | r2 => r2) = examGet st now 1 := rfl
      rw [hred, hget 1 (by omega) (by omega), if_neg hg]

/-- Claim C6, witness: the amended statement applied at a concrete session,
position and jump target. -/
theorem C6_amended_witness :
    (1 ≤ 2 ∧ 2 ≤ st6.num_q ∧ timeLeft st6 10 ≠ 0) ∧
    ((∀ (nav : Nav), (examPost st6 10 2 none nav).1 = st6) ∧
     navResult st6 10 2 Nav.next = (st6, Resp.render (min st6.num_q (2 + 1))) ∧
     navResult st6 10 2 Nav.prev = (st6, Resp.render (max 1 (2 - 1))) ∧
     navResult st6 10 2 (Nav.goto 7) =
       (st6, Resp.render (if 1 ≤ 7 ∧ 7 ≤ st6.num_q then 7 else 1))) :=
  ⟨⟨by decide, by decide, by decide⟩,
   C6_amended st6 10 2 7 (by decide) (by decide) (by decide)⟩

/-! ## Claim C10 -/

/-- Claim C10: in upload_excel with overwrite enabled, the deletion of the
stored questions happens after the workbook is read but before parsing: an
unreadable workbook leaves the bank unchanged, while a readable workbook
whose parse yields no questions still deletes every stored question, leaving
an empty bank on the no-questions-found path. -/
theorem C10_deletion_order :
    (∀ (bank : List SavedQ) (e : String),
      upload_excel bank true (Except.error e) = (bank, UploadOutcome.readError e)) ∧
    (∀ (bank : List SavedQ) (df : List (Option String × Option String)),
      parse_excel_dataframe df = [] →
      upload_excel bank true (Except.ok df) = ([], UploadOutcome.noQuestions)) := by
  constructor
  · intro bank e
    rfl
  · intro bank df h
    simp [upload_excel, h]

/-- Claim C10, witness: the deletion-order statement applied to a concrete
bank and a readable workbook that parses to no questions. -/
theorem C10_witness :
    parse_excel_dataframe [(some ("hello"), none)] = [] ∧
    upload_excel [⟨"q", "", "", "", "", none⟩] true (Except.ok [(some ("hello"), none)]) =
      ([], UploadOutcome.noQuestions) ∧
    upload_excel [⟨"q", "", "", "", "", none⟩] true (Except.error ("bad file")) =
      ([⟨"q", "", "", "", "", none⟩], UploadOutcome.readError ("bad file")) :=
  ⟨by decide,
   C10_deletion_order.2 [⟨"q", "", "", "", "", none⟩] [(some ("hello"), none)] (by decide),
   C10_deletion_order.1 [⟨"q", "", "", "", "", none⟩] ("bad file")⟩

/-! ## Claim C7 -/

/-- Claim C7: a parsed block with at least one option whose Answer letter is
not among the parsed option letters is still emitted, with its correct-answer
field cleared to the empty marker and its prompt and options kept; also
checked end to end on a concrete text whose answer letter C names no option. -/
theorem C7_answer_cleared :
    (∀ (qnum : Nat) (pls : List String) (opts : List (String × String)) (a : String)
       (qs : List PQuestion) (seen : List Nat),
      opts ≠ [] → (∀ p ∈ opts, p.1 ≠ a) →
      (storeBlock qnum pls opts (some a) qs seen).1 =
        qs ++ [⟨(if seen.contains qnum then (if qs.isEmpty then 1 else maxNumber qs + 1)
                 else qnum),
                promptOf qnum pls, opts, ""⟩]) ∧
    parse_pdf_text ("1. P\nA. x\nAnswer: C") = [⟨1, ("P"), [(("A"), ("x"))], ""⟩] := by
  constructor
  · intro qnum pls opts a qs seen hne hnot
    have hemp : opts.isEmpty = false := by simpa [List.isEmpty_iff] using hne
    have hany : opts.any (fun p => p.1 == a) = false := by
      simp only [List.any_eq_false]
      intro p hp
      simpa using hnot p hp
    simp [storeBlock, hemp, storedAnswer, hany]
  · decide

/-- Claim C7, witness: the block-level statement applied at a concrete block
whose answer letter C is not among its option letters. -/
theorem C7_witness :
    (([(("A"), ("x"))] : List (String × String)) ≠ [] ∧
      (∀ p ∈ ([(("A"), ("x"))] : List (String × String)), p.1 ≠ ("C"))) ∧
    (storeBlock 5 [("P")] [(("A"), ("x"))] (some ("C")) [] [3]).1 =
      [] ++ [⟨(if ([3] : List Nat).contains 5 then
                 (if ([] : List PQuestion).isEmpty then 1 else maxNumber [] + 1) else 5),
              promptOf 5 [("P")], [(("A"), ("x"))], ""⟩] :=
  ⟨⟨by decide, by decide⟩,
   C7_answer_cleared.1 5 [("P")] [(("A"), ("x"))] ("C") [] [3] (by decide) (by decide)⟩


/-! ## Claim C8 -/

theorem le_foldlMax (qs : List PQuestion) (a : Nat) :
    a ≤ qs.foldl (fun m q => max m q.number) a := by
  induction qs generalizing a with
  | nil => exact le_refl a
  | cons q qs ih => exact le_trans (Nat.le_max_left a q.number) (ih _)

theorem mem_le_foldlMax (qs : List PQuestion) : ∀ (a : Nat) (q : PQuestion), q ∈ qs →
    q.number ≤ qs.foldl (fun m q2 => max m q2.number) a := by
  induction qs with
  | nil => intro a q hq; cases hq
  | cons p ps ih =>
    intro a q hq
    rcases List.mem_cons.mp hq with h | h
    · subst h
      exact le_trans (Nat.le_max_right a q.number) (le_foldlMax ps _)
    · exact ih _ q h

theorem le_maxNumber (qs : List PQuestion) (q : PQuestion) (hq : q ∈ qs) :
    q.number ≤ maxNumber qs :=
  mem_le_foldlMax qs 0 q hq

theorem containsNat_iff (l : List Nat) (a : Nat) : l.contains a = true ↔ a ∈ l := by
  simp [List.contains]

theorem storeBlock_inv (qnum : Nat) (pls : List String) (opts : List (String × String))
    (ans : Option String) (qs : List PQuestion) (seen : List Nat)
    (h1 : (qs.map (fun q => q.number)).Nodup)
    (h2 : ∀ q ∈ qs, q.number ∈ seen) :
    ((storeBlock qnum pls opts ans qs seen).1.map (fun q => q.number)).Nodup ∧
    (∀ q ∈ (storeBlock qnum pls opts ans qs seen).1,
      q.number ∈ (storeBlock qnum pls opts ans qs seen).2) := by
  by_cases hemp : opts.isEmpty
  · simp only [storeBlock, hemp, if_true]
    exact ⟨h1, h2⟩
  · simp only [storeBlock, hemp, Bool.false_eq_true, if_false]
    set n2 : Nat := if seen.contains qnum then
        (if qs.isEmpty then 1 else maxNumber qs + 1) else qnum with hn2
    have hnotin : n2 ∉ qs.map (fun q => q.number) := by
      rw [hn2]
      by_cases hc : seen.contains qnum
      · simp only [hc, if_true]
        by_cases hq0 : qs.isEmpty
        · have : qs = [] := by simpa [List.isEmpty_iff] using hq0
          simp [this]
        · simp only [hq0, Bool.false_eq_true, if_false]
          intro hmem
          rcases List.mem_map.mp hmem with ⟨q, hq, hqn⟩
          have := le_maxNumber qs q hq
          omega
      · simp only [hc, Bool.false_eq_true, if_false]
        intro hmem
        rcases List.mem_map.mp hmem with ⟨q, hq, hqn⟩
        have hin : q.number ∈ seen := h2 q hq
        rw [hqn] at hin
        exact hc ((containsNat_iff seen qnum).mpr hin)
    constructor
    · rw [List.map_append]
      simp only [List.map_cons, List.map_nil]
      rw [List.nodup_append]
      refine ⟨h1, List.nodup_singleton _, ?_⟩
      intro x hx hx2
      simp only [List.mem_singleton] at hx2
      subst hx2
      exact hnotin hx
    · intro q hq
      rcases List.mem_append.mp hq with h | h
      · exact List.mem_cons_of_mem _ (h2 q h)
      · simp only [List.mem_singleton] at h
        subst h
        exact List.mem_cons_self _ _

theorem parseLoopF_nodup (fuel : Nat) : ∀ (lines : List String)
    (qs : List PQuestion) (seen : List Nat),
    (qs.map (fun q => q.number)).Nodup → (∀ q ∈ qs, q.number ∈ seen) →
    ((parseLoopF fuel lines qs seen).map (fun q => q.number)).Nodup := by
  induction fuel with
  | zero =>
    intro lines qs seen h1 h2
    simpa [parseLoopF] using h1
  | succ fuel ih =>
    intro lines qs seen h1 h2
    cases lines with
    | nil => simpa [parseLoopF] using h1
    | cons l rest =>
      rw [parseLoopF]
      cases hm : matchQStart l with
      | none => exact ih rest qs seen h1 h2
      | some v =>
        obtain ⟨qnum, g2⟩ := v
        simp only
        have hinv := storeBlock_inv qnum
          ((if pyStrip g2 ≠ "" then [pyStrip g2] else []) ++ (gatherPrompt rest).1)
          ((gatherOpts [] ((gatherPrompt rest).2)).1)
          (((takeAnswer ((gatherOpts [] ((gatherPrompt rest).2)).2)).1).map
            (fun c => Char.toString c.toUpper))
          qs seen h1 h2
        exact ih _ _ _ hinv.1 hinv.2

theorem storeBlock_len (qnum : Nat) (pls : List String) (opts : List (String × String))
    (ans : Option String) (qs : List PQuestion) (seen : List Nat) (qs2 : List PQuestion)
    (h : qs.length = qs2.length) :
    (storeBlock qnum pls opts ans qs seen).1.length =
      (storeBlockNoRenumber qnum pls opts ans qs2).length := by
  by_cases hemp : opts.isEmpty
  · simp [storeBlock, storeBlockNoRenumber, hemp, h]
  · simp [storeBlock, storeBlockNoRenumber, hemp, h]

theorem parseLoopF_lenEq (fuel : Nat) : ∀ (lines : List String)
    (qs : List PQuestion) (seen : List Nat) (qs2 : List PQuestion),
    qs.length = qs2.length →
    (parseLoopF fuel lines qs seen).length = (parseLoopNoRenumberF fuel lines qs2).length := by
  induction fuel with
  | zero =>
    intro lines qs seen qs2 h
    simpa [parseLoopF, parseLoopNoRenumberF] using h
  | succ fuel ih =>
    intro lines qs seen qs2 h
    cases lines with
    | nil => simpa [parseLoopF, parseLoopNoRenumberF] using h
    | cons l rest =>
      rw [parseLoopF, parseLoopNoRenumberF]
      cases hm : matchQStart l with
      | none => exact ih rest qs seen qs2 h
      | some v =>
        obtain ⟨qnum, g2⟩ := v
        simp only
        exact ih _ _ _ _ (storeBlock_len _ _ _ _ qs seen qs2 h)

/-- A question used by the C8 witness, carrying an already-seen number. -/
def qdup : PQuestion := ⟨4, "p", [(("A"), ("y"))], ""⟩

/-- Claim C8: a block whose declared number was already seen is stored under
the synthetic number max-seen-plus-one (1 when no questions were emitted
yet); all emitted question numbers are pairwise distinct; and the emitted
count equals the count of the same loop with renumbering removed, both on the
line level and for parse_pdf_text. -/
theorem C8_renumbering :
    (∀ (qnum : Nat) (pls : List String) (opts : List (String × String)) (ans : Option String)
       (qs : List PQuestion) (seen : List Nat),
      opts ≠ [] → seen.contains qnum = true →
      (storeBlock qnum pls opts ans qs seen).1 =
        qs ++ [⟨(if qs.isEmpty then 1 else maxNumber qs + 1),
                promptOf qnum pls, opts, storedAnswer opts ans⟩]) ∧
    (∀ (lines : List String), ((parseLoop lines [] []).map (fun q => q.number)).Nodup) ∧
    (∀ (lines : List String),
      (parseLoop lines [] []).length = (parseLoopNoRenumber lines []).length) ∧
    (∀ (text : String), ((parse_pdf_text text).map (fun q => q.number)).Nodup ∧
      (parse_pdf_text text).length =
        (parseLoopNoRenumber ((pySplitLines text).map pyStrip) []).length) := by
  have key2 : ∀ (lines : List String),
      ((parseLoop lines [] []).map (fun q => q.number)).Nodup := by
    intro lines
    exact parseLoopF_nodup lines.length lines [] [] (by simp) (by simp)
  have key3 : ∀ (lines : List String),
      (parseLoop lines [] []).length = (parseLoopNoRenumber lines []).length := by
    intro lines
    exact parseLoopF_lenEq lines.length lines [] [] [] rfl
  refine ⟨?_, key2, key3, ?_⟩
  · intro qnum pls opts ans qs seen hne hc
    have hemp : opts.isEmpty = false := by simpa [List.isEmpty_iff] using hne
    simp only [storeBlock, hemp, Bool.false_eq_true, if_false, hc, if_true]
  · intro text
    exact ⟨key2 _, key3 _⟩

/-- Claim C8, witness: the renumbering rule applied at a concrete duplicate
block, and the distinctness and count statements evaluated on a concrete text
with a repeated question number. -/
theorem C8_witness :
    (([(("A"), ("x"))] : List (String × String)) ≠ [] ∧
      ([4, 1] : List Nat).contains 4 = true ∧
      (storeBlock 4 [("P")] [(("A"), ("x"))] none [qdup] [4, 1]).1 =
        [qdup] ++ [⟨(if ([qdup] : List PQuestion).isEmpty then 1 else maxNumber [qdup] + 1),
                    promptOf 4 [("P")], [(("A"), ("x"))],
                    storedAnswer [(("A"), ("x"))] none⟩]) ∧
    ((parse_pdf_text ("1. P\nA. x\nAnswer: A\n1. Q\nA. y\nAnswer: A")).map
        (fun q => q.number)).Nodup ∧
    (parse_pdf_text ("1. P\nA. x\nAnswer: A\n1. Q\nA. y\nAnswer: A")).length =
      (parseLoopNoRenumber
        ((pySplitLines ("1. P\nA. x\nAnswer: A\n1. Q\nA. y\nAnswer: A")).map pyStrip) []).length :=
  ⟨⟨by decide, by decide,
    C8_renumbering.1 4 [("P")] [(("A"), ("x"))] none [qdup] [4, 1] (by decide) (by decide)⟩,
   (C8_renumbering.2.2.2 ("1. P\nA. x\nAnswer: A\n1. Q\nA. y\nAnswer: A")).1,
   (C8_renumbering.2.2.2 ("1. P\nA. x\nAnswer: A\n1. Q\nA. y\nAnswer: A")).2⟩

/-! ## Claim C2 -/

theorem origLabel_inj : ∀ (x y : Fin 4), origLabel x = origLabel y → x = y := by decide

theorem C2_marker_decide (q : DBQuestion) (pi : Equiv.Perm (Fin 4)) (j : Fin 4)
    (hj : correctStr q = origLabel j) :
    ∀ (i : Fin 4), (origLabel (pi i) == correctStr q) = decide (i = pi.symm j) := by
  intro i
  by_cases h : i = pi.symm j
  · subst h
    rw [Equiv.apply_symm_apply, hj]
    simp
  · have hne : origLabel (pi i) ≠ correctStr q := by
      intro he
      rw [hj] at he
      exact h ((Equiv.apply_eq_iff_eq_symm_apply pi).mp (origLabel_inj _ _ he))
    simp [hne, h]

/-- Claim C2: for a selected question whose bank row has a correct label, the
built session question has exactly one display choice marked correct, that
choice carries the text of the bank's correct option, and the stored correct
display label is that choice's label; for a bank row without a correct label
no choice is marked and no correct display label is stored.  The shuffle is
an arbitrary permutation of the four options. -/
theorem C2_shuffle_preserves_correct (q : DBQuestion) (pi : Equiv.Perm (Fin 4)) :
    (∀ (j : Fin 4), correctStr q = origLabel j →
      ((sessionChoices q pi).1.countP (fun c => c.is_correct) = 1 ∧
       ∃ c ∈ (sessionChoices q pi).1, c.is_correct = true ∧ c.text = optTexts q j ∧
         (sessionChoices q pi).2 = some c.display_label)) ∧
    ((∀ (j : Fin 4), correctStr q ≠ origLabel j) →
      ((∀ c ∈ (sessionChoices q pi).1, c.is_correct = false) ∧
       (sessionChoices q pi).2 = none)) := by
  constructor
  · intro j hj
    have hall : ∀ (x : Fin 4), x = 0 ∨ x = 1 ∨ x = 2 ∨ x = 3 := by decide
    have happ : pi (pi.symm j) = j := Equiv.apply_symm_apply pi j
    have hne2 : ∀ (i : Fin 4), i ≠ pi.symm j → origLabel (pi i) ≠ origLabel j := by
      intro i hi he
      exact hi ((Equiv.apply_eq_iff_eq_symm_apply pi).mp (origLabel_inj _ _ he))
    rcases hall (pi.symm j) with hk | hk | hk | hk
    · have hj0 : pi 0 = j := by rw [← hk]; exact happ
      have np1 : ¬ (origLabel (pi 1) = origLabel j) := hne2 1 (by rw [hk]; decide)
      have nb1 : (origLabel (pi 1) == origLabel j) = false := beq_eq_false_iff_ne.mpr np1
      have np2 : ¬ (origLabel (pi 2) = origLabel j) := hne2 2 (by rw [hk]; decide)
      have nb2 : (origLabel (pi 2) == origLabel j) = false := beq_eq_false_iff_ne.mpr np2
      have np3 : ¬ (origLabel (pi 3) = origLabel j) := hne2 3 (by rw [hk]; decide)
      have nb3 : (origLabel (pi 3) == origLabel j) = false := beq_eq_false_iff_ne.mpr np3
      have hsc : sessionChoices q pi =
          ([⟨("a"), optTexts q j, true⟩,
            ⟨("b"), optTexts q (pi 1), false⟩,
            ⟨("c"), optTexts q (pi 2), false⟩,
            ⟨("d"), optTexts q (pi 3), false⟩],
           some ("a")) := by
        simp [sessionChoices, shuffledOpts, buildChoices, displayLabels, hj, hj0, np1, nb1, np2, nb2, np3, nb3]
      rw [hsc]
      refine ⟨by simp [List.countP_cons], ⟨("a"), optTexts q j, true⟩, by simp, rfl, rfl, rfl⟩
    · have hj0 : pi 1 = j := by rw [← hk]; exact happ
      have np0 : ¬ (origLabel (pi 0) = origLabel j) := hne2 0 (by rw [hk]; decide)
      have nb0 : (origLabel (pi 0) == origLabel j) = false := beq_eq_false_iff_ne.mpr np0
      have np2 : ¬ (origLabel (pi 2) = origLabel j) := hne2 2 (by rw [hk]; decide)
      have nb2 : (origLabel (pi 2) == origLabel j) = false := beq_eq_false_iff_ne.mpr np2
      have np3 : ¬ (origLabel (pi 3) = origLabel j) := hne2 3 (by rw [hk]; decide)
      have nb3 : (origLabel (pi 3) == origLabel j) = false := beq_eq_false_iff_ne.mpr np3
      have hsc : sessionChoices q pi =
          ([⟨("a"), optTexts q (pi 0), false⟩,
            ⟨("b"), optTexts q j, true⟩,
            ⟨("c"), optTexts q (pi 2), false⟩,
            ⟨("d"), optTexts q (pi 3), false⟩],
           some ("b")) := by
        simp [sessionChoices, shuffledOpts, buildChoices, displayLabels, hj, hj0, np0, nb0, np2, nb2, np3, nb3]
      rw [hsc]
      refine ⟨by simp [List.countP_cons], ⟨("b"), optTexts q j, true⟩, by simp, rfl, rfl, rfl⟩
    · have hj0 : pi 2 = j := by rw [← hk]; exact happ
      have np0 : ¬ (origLabel (pi 0) = origLabel j) := hne2 0 (by rw [hk]; decide)
      have nb0 : (origLabel (pi 0) == origLabel j) = false := beq_eq_false_iff_ne.mpr np0
      have np1 : ¬ (origLabel (pi 1) = origLabel j) := hne2 1 (by rw [hk]; decide)
      have nb1 : (origLabel (pi 1) == origLabel j) = false := beq_eq_false_iff_ne.mpr np1
      have np3 : ¬ (origLabel (pi 3) = origLabel j) := hne2 3 (by rw [hk]; decide)
      have nb3 : (origLabel (pi 3) == origLabel j) = false := beq_eq_false_iff_ne.mpr np3
      have hsc : sessionChoices q pi =
          ([⟨("a"), optTexts q (pi 0), false⟩,
            ⟨("b"), optTexts q (pi 1), false⟩,
            ⟨("c"), optTexts q j, true⟩,
            ⟨("d"), optTexts q (pi 3), false⟩],
           some ("c")) := by
        simp [sessionChoices, shuffledOpts, buildChoices, displayLabels, hj, hj0, np0, nb0, np1, nb1, np3, nb3]
      rw [hsc]
      refine ⟨by simp [List.countP_cons], ⟨("c"), optTexts q j, true⟩, by simp, rfl, rfl, rfl⟩
    · have hj0 : pi 3 = j := by rw [← hk]; exact happ
      have np0 : ¬ (origLabel (pi 0) = origLabel j) := hne2 0 (by rw [hk]; decide)
      have nb0 : (origLabel (pi 0) == origLabel j) = false := beq_eq_false_iff_ne.mpr np0
      have np1 : ¬ (origLabel (pi 1) = origLabel j) := hne2 1 (by rw [hk]; decide)
      have nb1 : (origLabel (pi 1) == origLabel j) = false := beq_eq_false_iff_ne.mpr np1
      have np2 : ¬ (origLabel (pi 2) = origLabel j) := hne2 2 (by rw [hk]; decide)
      have nb2 : (origLabel (pi 2) == origLabel j) = false := beq_eq_false_iff_ne.mpr np2
      have hsc : sessionChoices q pi =
          ([⟨("a"), optTexts q (pi 0), false⟩,
            ⟨("b"), optTexts q (pi 1), false⟩,
            ⟨("c"), optTexts q (pi 2), false⟩,
            ⟨("d"), optTexts q j, true⟩],
           some ("d")) := by
        simp [sessionChoices, shuffledOpts, buildChoices, displayLabels, hj, hj0, np0, nb0, np1, nb1, np2, nb2]
      rw [hsc]
      refine ⟨by simp [List.countP_cons], ⟨("d"), optTexts q j, true⟩, by simp, rfl, rfl, rfl⟩
  · intro hne
    have e : ∀ (i : Fin 4), (origLabel (pi i) == correctStr q) = false := by
      intro i
      have h2 : origLabel (pi i) ≠ correctStr q := fun he => hne (pi i) he.symm
      simpa using h2
    have ep : ∀ (i : Fin 4), ¬ (origLabel (pi i) = correctStr q) := by
      intro i
      have h2 : origLabel (pi i) ≠ correctStr q := fun he => hne (pi i) he.symm
      exact h2
    have hsc : sessionChoices q pi =
        ([⟨("a"), optTexts q (pi 0), false⟩, ⟨("b"), optTexts q (pi 1), false⟩,
          ⟨("c"), optTexts q (pi 2), false⟩, ⟨("d"), optTexts q (pi 3), false⟩],
         none) := by
      simp [sessionChoices, shuffledOpts, buildChoices, displayLabels,
        e 0, e 1, e 2, e 3, ep 0, ep 1, ep 2, ep 3]
    rw [hsc]
    constructor
    · intro c hc
      simp only [List.mem_cons, List.not_mem_nil, or_false] at hc
      rcases hc with h | h | h | h
      all_goals (subst h; rfl)
    · rfl

/-- A concrete bank row whose correct label is b. -/
def dbq : DBQuestion := ⟨7, some "T", some "o1", some "o2", some "o3", some "o4", some "b"⟩

/-- A concrete bank row without a correct label. -/
def dbqNone : DBQuestion := ⟨8, some "T", some "o1", some "o2", some "o3", some "o4", none⟩

/-- Claim C2, witness: the statement applied to concrete rows with the
identity permutation of the four options. -/
theorem C2_witness :
    (correctStr dbq = origLabel 1 ∧
      ((sessionChoices dbq (Equiv.refl (Fin 4))).1.countP (fun c => c.is_correct) = 1 ∧
       ∃ c ∈ (sessionChoices dbq (Equiv.refl (Fin 4))).1, c.is_correct = true ∧
         c.text = optTexts dbq 1 ∧
         (sessionChoices dbq (Equiv.refl (Fin 4))).2 = some c.display_label)) ∧
    ((∀ (j : Fin 4), correctStr dbqNone ≠ origLabel j) ∧
      ((∀ c ∈ (sessionChoices dbqNone (Equiv.refl (Fin 4))).1, c.is_correct = false) ∧
       (sessionChoices dbqNone (Equiv.refl (Fin 4))).2 = none)) :=
  ⟨⟨by decide, (C2_shuffle_preserves_correct dbq (Equiv.refl (Fin 4))).1 1 (by decide)⟩,
   ⟨by decide, (C2_shuffle_preserves_correct dbqNone (Equiv.refl (Fin 4))).2 (by decide)⟩⟩

/-! ## Claim C9 -/

/-- Claim C9: in the spreadsheet parser a question is emitted exactly when
the fourth option (labels a-d) is accumulated for it: an option row that
completes the fourth option with a current question emits and resets the
accumulation (current question, options, correct mark); an option row that
leaves fewer than four options, or that has no current question, emits
nothing; a question-marker row emits the previous question only when exactly
four options were accumulated, and an inline cell emits immediately only
when its own four options are found; the end-of-input finalize emits only a
complete four-option question.  Checked end to end on a complete and an
incomplete sheet. -/
theorem C9_four_option_completion :
    (∀ (st : PState) (rawQ : String) (cellA : Option String) (lab val cq : String),
      startsCau (pyStrip rawQ) = false →
      matchChoice (pyStrip rawQ) = some (lab, val) →
      st.current_q = some cq → cq ≠ "" →
      ((alInsertS st.opts lab val).length = 4 →
        stepRow st (some rawQ) cellA =
          ⟨st.questions ++ [⟨cq, alInsertS st.opts lab val,
              if markOf cellA = "x" then some lab else st.correct⟩], none, [], none⟩) ∧
      ((alInsertS st.opts lab val).length ≠ 4 →
        stepRow st (some rawQ) cellA =
          ⟨st.questions, st.current_q, alInsertS st.opts lab val,
           if markOf cellA = "x" then some lab else st.correct⟩)) ∧
    (∀ (st : PState) (rawQ : String) (cellA : Option String) (lab val : String),
      startsCau (pyStrip rawQ) = false →
      matchChoice (pyStrip rawQ) = some (lab, val) →
      truthy st.current_q = false →
      (stepRow st (some rawQ) cellA).questions = st.questions) ∧
    (∀ (st : PState) (rawQ : String) (cellA : Option String),
      startsCau (pyStrip rawQ) = true →
      splitInlineA (pyStrip rawQ).toList = none →
      stepRow st (some rawQ) cellA =
        ⟨(if truthy st.current_q ∧ st.opts.length = 4 then st.questions ++ [mkXQ st]
          else st.questions), some (pyStrip (subCauNum (pyStrip rawQ))), [], none⟩) ∧
    (∀ (st : PState) (rawQ : String) (cellA : Option String) (before fromA : List Char),
      startsCau (pyStrip rawQ) = true →
      splitInlineA (pyStrip rawQ).toList = some (before, fromA) →
      ((inlineFound fromA).length = 4 →
        stepRow st (some rawQ) cellA =
          ⟨(if truthy st.current_q ∧ st.opts.length = 4 then st.questions ++ [mkXQ st]
            else st.questions) ++ [⟨pyStrip (String.mk before), inlineFound fromA, none⟩],
           none, [], none⟩) ∧
      ((inlineFound fromA).length ≠ 4 →
        stepRow st (some rawQ) cellA =
          ⟨(if truthy st.current_q ∧ st.opts.length = 4 then st.questions ++ [mkXQ st]
            else st.questions), some (pyStrip (String.mk before)), inlineFound fromA, none⟩)) ∧
    (∀ (st : PState),
      (¬ (truthy st.current_q = true ∧ st.opts.length = 4) → finalizeP st = st.questions) ∧
      (truthy st.current_q = true ∧ st.opts.length = 4 →
        finalizeP st = st.questions ++ [mkXQ st])) ∧
    (parse_excel_dataframe
        [(some ("Câu 1. T?"), none), (some ("a. 1"), none), (some ("b. 2"), some ("x")),
         (some ("c. 3"), none), (some ("d. 4"), none)] =
      [⟨("T?"), [(("a"), ("1")), (("b"), ("2")), (("c"), ("3")), (("d"), ("4"))], some ("b")⟩]) ∧
    (parse_excel_dataframe
        [(some ("Câu 1. T?"), none), (some ("a. 1"), none), (some ("b. 2"), none)] = []) := by
  refine ⟨?_, ?_, ?_, ?_, ?_, by decide, by decide⟩
  · intro st rawQ cellA lab val cq hsc hmc hcq hne
    have htr : truthy st.current_q = true := by
      rw [hcq]
      simpa [truthy] using hne
    constructor
    · intro h4
      simp [stepRow, hsc, hmc, hcq, htr, h4, truthy, hne]
    · intro h4
      simp [stepRow, hsc, hmc, hcq, htr, h4, truthy, hne]
  · intro st rawQ cellA lab val hsc hmc htr
    simp [stepRow, hsc, hmc, htr]
  · intro st rawQ cellA hsc hin
    have hin2 : splitInlineA (pyStrip rawQ).data = none := hin
    simp [stepRow, hsc, hin2]
  · intro st rawQ cellA before fromA hsc hin
    have hin2 : splitInlineA (pyStrip rawQ).data = some (before, fromA) := hin
    constructor
    · intro h4
      simp only [inlineFound] at h4
      simp [stepRow, hsc, hin2, h4, inlineFound]
    · intro h4
      simp only [inlineFound] at h4
      simp [stepRow, hsc, hin2, h4, inlineFound]
  · intro st
    constructor
    · intro h
      simp only [finalizeP]
      rw [if_neg h]
    · intro h
      simp only [finalizeP]
      rw [if_pos h]

/-- The accumulation state just before the fourth option row arrives. -/
def st9 : PState := ⟨[], some "Q", [(("a"), ("1")), (("b"), ("2")), (("c"), ("3"))], none⟩

/-- Claim C9, witness: the option-completion statement applied at a concrete
state holding three options when the fourth option row arrives. -/
theorem C9_witness :
    (startsCau (pyStrip ("d. 4")) = false ∧
     matchChoice (pyStrip ("d. 4")) = some (("d"), ("4")) ∧
     (alInsertS st9.opts ("d") ("4")).length = 4) ∧
    stepRow st9 (some ("d. 4")) none =
      ⟨st9.questions ++ [⟨("Q"), alInsertS st9.opts ("d") ("4"),
          if markOf none = "x" then some ("d") else st9.correct⟩], none, [], none⟩ :=
  ⟨⟨by decide, by decide, by decide⟩,
   ((C9_four_option_completion).1 st9 ("d. 4") none ("d") ("4") ("Q") (by decide) (by decide) rfl
     (by decide)).1 (by decide)⟩
